import Mathlib

/-!
Shallow embedding of the client-side runtime of the Abacus dashboard
(`backend/index/static/index/app.js`): the session/token lifecycle of the
`api` helper, the `handleUnauthorizedResponse` debounce, the faction
directory cache (`getFactionDirectory`, `resolveFactionName`) and the
roster draft/diff machinery of `openManageMembersModal`, together with the
save handlers of `openManagePersonnelModal` and `openManageTargetsModal`.

Conventions of the embedding:
* JavaScript strings are `String`; the empty string models a falsy string
  (absent token, missing `name` field, missing `access` field).
* `Date.now()` and JWT `exp` values are `Int` (milliseconds / seconds).
* Host-level operations that can throw inside a `try` block
  (base64/percent/JSON decoding in `decodeJwt`) are abstracted as a
  parameter returning `Option`; `none` models a caught exception.
* Each network interaction of `api` is an oracle parameter describing what
  the corresponding `fetch` would produce.
-/

namespace Abacus

/-- JS `String.prototype.trim()`: drop whitespace from both ends.  Defined
by structural recursion over the character list so that concrete instances
reduce inside the kernel. -/
def jsTrim (s : String) : String :=
  ⟨((s.data.dropWhile Char.isWhitespace).reverse.dropWhile
      Char.isWhitespace).reverse⟩

/-- JS `String.prototype.toLowerCase()` (ASCII fragment, which is all the
directory labels use). -/
def jsToLower (s : String) : String :=
  ⟨s.data.map Char.toLower⟩

/-- Split a character list at every occurrence of `sep` (JS
`String.prototype.split(sep)` semantics: no separator yields a single
segment, a trailing separator yields a trailing empty segment). -/
def splitOnCharAux (sep : Char) : List Char → List (List Char)
  | [] => [[]]
  | c :: rest =>
    let r := splitOnCharAux sep rest
    if c = sep then [] :: r
    else
      match r with
      | [] => [[c]]
      | h :: t => (c :: h) :: t

/-- JS `s.split(sep)` for a one-character separator. -/
def jsSplit (sep : Char) (s : String) : List String :=
  (splitOnCharAux sep s.data).map String.mk

/-- Payload claims read from a JWT by the client.  The client only ever
reads `exp` (seconds since epoch); `exp := none` models a payload object
without an `exp` field (in JS, `undefined * 1000 < x` is false). -/
structure JwtClaims where
  exp : Option Int
deriving Repr, DecidableEq

/-- Model of `decodeJwt(token)` (app.js lines 65-77).  The source splits
the token on `'.'`, takes segment 1, base64url-decodes it, percent-decodes
and JSON-parses it, all inside a `try` that returns `null` on any failure.
`parsePayload` abstracts the base64/percent/JSON pipeline on the payload
segment; a missing segment 1 (token without a `'.'`) throws in the source
and hence yields `null`. -/
def decodeJwt (parsePayload : String → Option JwtClaims) (token : String) :
    Option JwtClaims :=
  match (jsSplit '.' token).get? 1 with
  | none => none
  | some seg => parsePayload seg

/-- Outcome of one `fetch('/api/auth/token/refresh/', ...)` call.
`success a` is an HTTP 2xx response whose JSON body has `access = a`
(`a = ""` models a body whose `access` field is falsy or missing);
`badStatus` is a non-2xx response (`rf.ok` false); `netError` is the
`fetch` (or `rf.json()`) itself throwing. -/
inductive RefreshOutcome where
  | success (a : String)
  | badStatus
  | netError
deriving Repr, DecidableEq

/-- Which response object `api` returns to its caller. -/
inductive RespSource where
  | original
  | retry
deriving Repr, DecidableEq

/-- Result of one `api(path, opts)` call: either an `Error` is thrown, or a
response (original or retried) with the given HTTP status is returned. -/
inductive ApiOutcome where
  | threw
  | returned (src : RespSource) (status : Nat)
deriving Repr, DecidableEq

/-- Observable trace of one `api(path, opts)` call.
`proactiveRefreshAttempted` records whether the proactive
`/api/auth/token/refresh/` fetch was issued before the main request;
`mainRequests` counts how many times the original request was issued
(initial send plus retries); `sentToken` is the bearer token attached to
the first issue of the main request (`none` when no Authorization header
was attached); `unauthorizedCalls` counts invocations of
`handleUnauthorizedResponse`. -/
structure ApiTrace where
  proactiveRefreshAttempted : Bool
  mainRequests : Nat
  sentToken : Option String
  unauthorizedCalls : Nat
  outcome : ApiOutcome
deriving Repr, DecidableEq

/-- Condition of app.js line 85: `decodedToken && decodedToken.exp * 1000 <
Date.now() + 60000`.  A `null` decode or a missing `exp` leaves the
condition false. -/
def tokenExpiring (decode : String → Option JwtClaims) (access : String)
    (now : Int) : Bool :=
  match decode access with
  | some c =>
    match c.exp with
    | some e => e * 1000 < now + 60000
    | none => false
  | none => false

/-- Main-request phase of `api` (app.js lines 114-153): send the request
with bearer token `tok` (empty string models no stored token, hence no
Authorization header); on a 401, run the reactive refresh-and-retry-once
fallback.  `proAttempted` threads through whether the proactive phase
already issued a refresh fetch. -/
def apiMainPhase (refreshTok : String) (react : RefreshOutcome)
    (mainStatus retryStatus : Nat) (tok : String) (proAttempted : Bool) :
    ApiTrace :=
  let sent : Option String := if tok = "" then none else some tok
  if mainStatus = 401 then
    if refreshTok = "" then
      ⟨proAttempted, 1, sent, 1, .returned .original 401⟩
    else
      match react with
      | .netError => ⟨proAttempted, 1, sent, 1, .returned .original 401⟩
      | .badStatus => ⟨proAttempted, 1, sent, 1, .returned .original 401⟩
      | .success a =>
        if a = "" then
          ⟨proAttempted, 1, sent, 1, .returned .original 401⟩
        else
          ⟨proAttempted, 2, sent, if retryStatus = 401 then 1 else 0,
            .returned .retry retryStatus⟩
  else
    ⟨proAttempted, 1, sent, 0, .returned .original mainStatus⟩

/-- Model of `api(path, opts)` (app.js lines 79-154).  Proactive phase:
when a stored access token is present and `tokenExpiring` holds, refresh
first — missing refresh token or a failed refresh call invokes
`handleUnauthorizedResponse` and throws (a non-2xx refresh status or a
missing `access` field in the body invokes it twice: once at the explicit
call site and once more from the surrounding `catch`).  Then the main
phase issues the request. -/
def apiModel (decode : String → Option JwtClaims) (access refreshTok : String)
    (now : Int) (proact : RefreshOutcome) (mainStatus : Nat)
    (react : RefreshOutcome) (retryStatus : Nat) : ApiTrace :=
  if access ≠ "" ∧ tokenExpiring decode access now then
    if refreshTok = "" then
      ⟨false, 0, none, 1, .threw⟩
    else
      match proact with
      | .netError => ⟨true, 0, none, 1, .threw⟩
      | .badStatus => ⟨true, 0, none, 2, .threw⟩
      | .success a =>
        if a = "" then
          ⟨true, 0, none, 2, .threw⟩
        else
          apiMainPhase refreshTok react mainStatus retryStatus a true
  else
    apiMainPhase refreshTok react mainStatus retryStatus access false

/-- Directory entry as used by the faction directory cache: the source only
reads `id` and `name` (`name = ""` models a falsy/missing `name`). -/
structure DirEntry where
  id : Nat
  name : String
deriving Repr, DecidableEq

/-- Snapshot held in `factionDirectoryCache` (app.js lines 281-286): the raw
list (entries may be `null` in the JSON, modelled as `none`), the two
indices as association lists standing for the two JS `Map`s, and the
freshness timestamp. -/
structure DirCache where
  list : List (Option DirEntry)
  byName : List (String × DirEntry)
  byId : List (String × DirEntry)
  timestamp : Int
deriving Repr, DecidableEq

/-- Initial (and post-`invalidateFactionDirectory`) cache value. -/
def emptyDirCache : DirCache := ⟨[], [], [], 0⟩

/-- JS `Map.prototype.set` on an association list: overwrite the binding if
the key is present, otherwise append it. -/
def assocSet (m : List (String × DirEntry)) (k : String) (v : DirEntry) :
    List (String × DirEntry) :=
  if m.any (fun p => p.1 = k) then
    m.map (fun p => if p.1 = k then (k, v) else p)
  else m ++ [(k, v)]

/-- JS `Map.prototype.get` on an association list. -/
def assocGet (m : List (String × DirEntry)) (k : String) : Option DirEntry :=
  (m.find? (fun p => p.1 = k)).map (fun p => p.2)

/-- Index construction of `getFactionDirectory` (app.js lines 296-302): the
`forEach` skips `null` items and items with a falsy `name`, then stores the
item under its name and under `String(item.id)`. -/
def buildIndices (list : List (Option DirEntry)) :
    List (String × DirEntry) × List (String × DirEntry) :=
  list.foldl
    (fun acc item =>
      match item with
      | none => acc
      | some it =>
        if it.name = "" then acc
        else (assocSet acc.1 it.name it, assocSet acc.2 (toString it.id) it))
    ([], [])

/-- Result of one `fetch('/api/scales/factions/')` as seen through `api`:
either the JSON list, or a non-ok status (which makes the source throw). -/
inductive DirFetch where
  | ok (list : List (Option DirEntry))
  | httpError (status : Nat)
deriving Repr, DecidableEq

/-- Observable result of `getFactionDirectory`: the cache afterwards,
whether a network fetch was issued, and the status of a thrown
`Failed to fetch faction directory` error, if any. -/
structure DirTrace where
  cache : DirCache
  fetched : Bool
  error : Option Nat
deriving Repr, DecidableEq

/-- Model of `getFactionDirectory(force)` (app.js lines 288-305): serve the
cached snapshot when it is non-empty, younger than 60s and `force` is
false; otherwise fetch, rebuild both indices and replace the snapshot with
one fresh object. -/
def getFactionDirectory (force : Bool) (cache : DirCache) (now : Int)
    (fetch : DirFetch) : DirTrace :=
  if ¬force ∧ cache.list ≠ [] ∧ now - cache.timestamp < 60000 then
    ⟨cache, false, none⟩
  else
    match fetch with
    | .httpError s => ⟨cache, true, some s⟩
    | .ok list =>
      let idx := buildIndices list
      ⟨⟨list, idx.1, idx.2, now⟩, true, none⟩

/-- JS `String(item?.name || '')` for a possibly-`null` list item. -/
def labelOf : Option DirEntry → String
  | some it => it.name
  | none => ""

/-- Case-insensitive scan of `resolveFactionName` (app.js lines 274-277):
return the first cached label whose lower-casing equals `lower`. -/
def scanCaseInsensitive (list : List (Option DirEntry)) (lower : String) :
    Option String :=
  match list with
  | [] => none
  | item :: rest =>
    let label := labelOf item
    if jsToLower label = lower then some label
    else scanCaseInsensitive rest lower

/-- Fallback half of `resolveFactionName`: the case-insensitive loop, then
the trimmed input itself. -/
def resolveScan (cache : DirCache) (name : String) : String :=
  match scanCaseInsensitive cache.list (jsToLower name) with
  | some label => label
  | none => name

/-- Model of `resolveFactionName(value)` (app.js lines 267-279): trim; empty
input resolves to `""`; an exact-case hit in `byName` with a truthy `name`
wins; otherwise scan case-insensitively; otherwise return the trimmed
input. -/
def resolveFactionName (cache : DirCache) (value : String) : String :=
  let name := jsTrim value
  if name = "" then ""
  else
    match assocGet cache.byName name with
    | some e => if e.name ≠ "" then e.name else resolveScan cache name
    | none => resolveScan cache name

/-- Session-scoped client state touched by `handleUnauthorizedResponse`
(app.js lines 156-172): the debounce flag, both stored tokens, the
persisted user identity (`userStore` + `currentUser`), the persisted view
state (`stateStore` keys, `none` = deleted), the faction directory cache,
the visible tier, a count of user-visible messages shown, and the time at
which the pending `setTimeout` will clear the flag. -/
structure SessionState where
  invalidated : Bool
  access : String
  refresh : String
  role : String
  username : String
  displayName : String
  storedPage : Option String
  storedProfileId : Option String
  storedFilters : Option String
  dirCache : DirCache
  tier : String
  messagesShown : Nat
  pendingReset : Option Int
deriving Repr, DecidableEq

/-- Model of `handleUnauthorizedResponse()` (app.js lines 156-172).  While
`sessionInvalidated` is set the whole body is skipped; otherwise the flag
is raised, tokens and user/view state are cleared, the directory cache is
invalidated, the tier switches to `login`, one message is shown, and a
reset of the flag is scheduled `1500` ms from `now`. -/
def handleUnauthorizedResponse (now : Int) (s : SessionState) : SessionState :=
  if s.invalidated then s
  else
    { invalidated := true
      access := ""
      refresh := ""
      role := ""
      username := ""
      displayName := ""
      storedPage := none
      storedProfileId := none
      storedFilters := none
      dirCache := emptyDirCache
      tier := "login"
      messagesShown := s.messagesShown + 1
      pendingReset := some (now + 1500) }

/-- Firing of the `setTimeout` scheduled by `handleUnauthorizedResponse`:
it only resets `sessionInvalidated` to `false`. -/
def sessionDebounceFires (s : SessionState) : SessionState :=
  { s with invalidated := false, pendingReset := none }

/-- Entry of the `rosterState` map of `openManageMembersModal` (app.js
lines 3271-3279 and 3404-3412). -/
structure RosterEntry where
  profile_id : Nat
  full_name : String
  aliases : List String
  affiliation : String
  originalAffiliation : String
  isNew : Bool
  isRemoved : Bool
deriving Repr, DecidableEq

/-- JS `rosterState.get(profileId)`: the map is modelled as its list of
values in insertion order, keyed by `profile_id`. -/
def rosterGet (s : List RosterEntry) (id : Nat) : Option RosterEntry :=
  s.find? (fun e => e.profile_id = id)

/-- JS `rosterState.set(profileId, entry)`: overwrite in place when the key
exists, append otherwise. -/
def rosterSet (s : List RosterEntry) (e : RosterEntry) : List RosterEntry :=
  if s.any (fun x => x.profile_id = e.profile_id) then
    s.map (fun x => if x.profile_id = e.profile_id then e else x)
  else s ++ [e]

/-- JS `rosterState.delete(profileId)`. -/
def rosterDelete (s : List RosterEntry) (id : Nat) : List RosterEntry :=
  s.filter (fun e => ¬ e.profile_id = id)

/-- The `AFFILIATION_DEFAULTS` constant of `openManageMembersModal`
(app.js lines 3117-3127). -/
def AFFILIATION_DEFAULTS : List String :=
  ["Leader", "High ranking member", "Member", "Associate", "Hangaround",
   "Affiliate", "Supporter", "Informant", "Unknown"]

/-- Model of `normaliseAffiliation(value)` (app.js lines 3171-3174):
keep a known option, otherwise fall back to the first option or
`'Associate'` when that first option is falsy/absent. -/
def normaliseAffiliation (opts : List String) (v : String) : String :=
  if v ∈ opts then v
  else
    match opts.head? with
    | some h => if h = "" then "Associate" else h
    | none => "Associate"

/-- Member record of the `manage-members` GET response (only the fields the
modal reads); `full_name = ""` models a falsy/missing `full_name`. -/
structure MemberInput where
  profile_id : Nat
  full_name : String
  aliases : List String
  affiliation : String
deriving Repr, DecidableEq

/-- JS `mem.full_name || 'Unknown Operative'`. -/
def orUnknown (s : String) : String :=
  if s = "" then "Unknown Operative" else s

/-- Choice of `affiliationOptions` in `applyInitialData` (app.js lines
3262-3266): a non-empty server list wins, else the defaults. -/
def chooseAffiliationOptions (dataOptions : List String) : List String :=
  if dataOptions ≠ [] then dataOptions else AFFILIATION_DEFAULTS

/-- Model of `applyInitialData(data)` (app.js lines 3261-3287): reset the
working set and load every member as a baseline entry with
`isNew = false, isRemoved = false` and `originalAffiliation` equal to the
normalised incoming affiliation.  Returns the chosen affiliation options
together with the fresh `rosterState`. -/
def applyInitialData (dataOptions : List String) (members : List MemberInput) :
    List String × List RosterEntry :=
  let opts := chooseAffiliationOptions dataOptions
  let state := members.foldl
    (fun s mem =>
      let cleanAff := normaliseAffiliation opts mem.affiliation
      rosterSet s
        { profile_id := mem.profile_id
          full_name := orUnknown mem.full_name
          aliases := mem.aliases
          affiliation := cleanAff
          originalAffiliation := cleanAff
          isNew := false
          isRemoved := false })
    []
  (opts, state)

/-- Model of the `member-aff` change handler (app.js lines 3350-3358):
mutate the working affiliation of an existing entry. -/
def memberAffChange (s : List RosterEntry) (id : Nat) (v : String) :
    List RosterEntry :=
  match rosterGet s id with
  | none => s
  | some e => rosterSet s { e with affiliation := v }

/-- Model of the `member-remove` click handler (app.js lines 3360-3373):
delete an `isNew` entry outright, tombstone a baseline entry. -/
def memberRemove (s : List RosterEntry) (id : Nat) : List RosterEntry :=
  match rosterGet s id with
  | none => s
  | some e =>
    if e.isNew then rosterDelete s id
    else rosterSet s { e with isRemoved := true }

/-- Candidate card as held in `candidateCache` (app.js lines 3313-3319). -/
structure Candidate where
  profile_id : Nat
  full_name : String
  aliases : List String
  affiliation : String
deriving Repr, DecidableEq

/-- Model of the `candidate-add` click handler (app.js lines 3388-3418).
`affSelectValue` is the value of the affiliation `<select>` next to the
button; the selected affiliation falls back to the candidate's cached
affiliation, then to `normaliseAffiliation('Associate')`, and an empty
selection aborts.  Re-adding an existing (tombstoned) entry clears
`isRemoved` and sets its affiliation; otherwise a fresh `isNew` entry is
inserted. -/
def candidateAdd (opts : List String) (s : List RosterEntry)
    (cand : Candidate) (affSelectValue : String) : List RosterEntry :=
  let selectedAff :=
    if affSelectValue ≠ "" then affSelectValue
    else if cand.affiliation ≠ "" then cand.affiliation
    else normaliseAffiliation opts "Associate"
  if selectedAff = "" then s
  else
    match rosterGet s cand.profile_id with
    | some e => rosterSet s { e with isRemoved := false, affiliation := selectedAff }
    | none =>
      rosterSet s
        { profile_id := cand.profile_id
          full_name := cand.full_name
          aliases := cand.aliases
          affiliation := selectedAff
          originalAffiliation := selectedAff
          isNew := true
          isRemoved := false }

/-- Per-entry test of `hasChanges()` (app.js lines 3182-3189): a surviving
new member, a tombstoned baseline member, or a baseline member whose
working affiliation differs from the original. -/
def entryChanged (e : RosterEntry) : Bool :=
  (e.isNew && !e.isRemoved) || (!e.isNew && e.isRemoved) ||
    (!e.isNew && !e.isRemoved && e.affiliation ≠ e.originalAffiliation)

/-- Model of `hasChanges()` (app.js lines 3182-3189): the loop returns true
as soon as one entry satisfies one of the three conditions. -/
def hasChanges (s : List RosterEntry) : Bool :=
  s.any entryChanged

/-- The three buckets assembled by the save handler of
`openManageMembersModal` (app.js lines 3421-3436): `add` and `updates`
carry `(profile_id, affiliation)` pairs, `remove` carries profile ids. -/
structure RosterDiff where
  add : List (Nat × String)
  updates : List (Nat × String)
  remove : List Nat
deriving Repr, DecidableEq

/-- Empty diff. -/
def emptyDiff : RosterDiff := ⟨[], [], []⟩

/-- Bucket computation of the save handler (app.js lines 3424-3436),
following the loop over `rosterState.values()` in insertion order. -/
def computeDiff : List RosterEntry → RosterDiff
  | [] => ⟨[], [], []⟩
  | e :: rest =>
    let d := computeDiff rest
    if e.isNew && !e.isRemoved then
      { d with add := (e.profile_id, e.affiliation) :: d.add }
    else if e.isRemoved && !e.isNew then
      { d with remove := e.profile_id :: d.remove }
    else if e.affiliation ≠ e.originalAffiliation then
      { d with updates := (e.profile_id, e.affiliation) :: d.updates }
    else d

/-- Entry of the `state.assigned` map of `openManagePersonnelModal`
(app.js line 4813).  The source field `alias` is a reserved word in Lean
and is rendered here as `agentAlias`. -/
structure Assignment where
  agent_id : Nat
  agentAlias : String
  role_in_op : String
deriving Repr, DecidableEq

/-- Target kind discriminator of `openManageTargetsModal` (the `type`
field, `'profile'` or `'faction'`). -/
inductive TargetType where
  | profile
  | faction
deriving Repr, DecidableEq

/-- Entry of the `state.assigned` map of `openManageTargetsModal`
(app.js line 4965). -/
structure TargetEntry where
  id : Nat
  name : String
  ty : TargetType
deriving Repr, DecidableEq

/-- Shape of the JSON body POSTed by the three roster-management save
handlers: three buckets for faction members (app.js line 3448), a flat
assignments list for operation personnel (line 4913), and two id lists for
operation targets (lines 5059-5069). -/
inductive PostedPayload where
  | buckets (d : RosterDiff)
  | assignments (l : List Assignment)
  | idLists (profile_ids faction_ids : List Nat)
deriving Repr, DecidableEq

/-- Discriminator: does a payload consist of the `{add, updates, remove}`
buckets? -/
def PostedPayload.isThreeBuckets : PostedPayload → Bool
  | buckets _ => true
  | assignments _ => false
  | idLists _ _ => false

/-- Observable action of a save handler: either an informational message
with no network request, or a POST with the given payload. -/
inductive SaveResult where
  | noop (message level : String)
  | post (payload : PostedPayload)
deriving Repr, DecidableEq

/-- Model of the save handler of `openManageMembersModal` (app.js lines
3420-3449): compute the three buckets; an empty diff short-circuits with
an informational message and no POST, otherwise the buckets are POSTed. -/
def saveMembers (s : List RosterEntry) : SaveResult :=
  let d := computeDiff s
  if d.add = [] ∧ d.updates = [] ∧ d.remove = [] then
    .noop "No roster changes to save." "info"
  else .post (.buckets d)

/-- Model of the save handler of `openManagePersonnelModal` (app.js lines
4912-4923): always POST the full assignments list. -/
def savePersonnel (assigned : List Assignment) : SaveResult :=
  .post (.assignments assigned)

/-- Model of the save handler of `openManageTargetsModal` (app.js lines
5058-5080): one pass over the assigned targets splits ids into
`profile_ids` and `faction_ids`, both always POSTed. -/
def saveTargets (assigned : List TargetEntry) : SaveResult :=
  let ids := assigned.foldl
    (fun acc e =>
      match e.ty with
      | .profile => (acc.1 ++ [e.id], acc.2)
      | .faction => (acc.1, acc.2 ++ [e.id]))
    ([], [])
  .post (.idLists ids.1 ids.2)

/-- Reachable configurations `(affiliationOptions, rosterState)` of the
manage-members modal: the initial empty map with default options, then any
interleaving of `applyInitialData` (initial load / reload), affiliation
changes, removals and candidate adds. -/
inductive RosterReachable : List String × List RosterEntry → Prop
  | init : RosterReachable (AFFILIATION_DEFAULTS, [])
  | load (c : List String × List RosterEntry) (dataOptions : List String)
      (members : List MemberInput) : RosterReachable c →
      RosterReachable (applyInitialData dataOptions members)
  | affChange (c : List String × List RosterEntry) (id : Nat) (v : String) :
      RosterReachable c → RosterReachable (c.1, memberAffChange c.2 id v)
  | removeMember (c : List String × List RosterEntry) (id : Nat) :
      RosterReachable c → RosterReachable (c.1, memberRemove c.2 id)
  | addCandidate (c : List String × List RosterEntry) (cand : Candidate)
      (affSelectValue : String) : RosterReachable c →
      RosterReachable (c.1, candidateAdd c.1 c.2 cand affSelectValue)

/-! Basic lemmas about the embedded definitions. -/

/-- An empty stored token never decodes: `''.split('.')[1]` is undefined,
so `decodeJwt` returns `null`. -/
lemma decodeJwt_empty (pp : String → Option JwtClaims) :
    decodeJwt pp "" = none := rfl

/-- Structural facts about the main-request phase: it reports the threaded
`proAttempted` flag, attaches the token it was given, issues the original
request once or twice, and never throws. -/
lemma apiMainPhase_spec (r : String) (rc : RefreshOutcome) (ms rs : Nat)
    (tok : String) (p : Bool) :
    (apiMainPhase r rc ms rs tok p).proactiveRefreshAttempted = p ∧
    (apiMainPhase r rc ms rs tok p).sentToken
      = (if tok = "" then none else some tok) ∧
    1 ≤ (apiMainPhase r rc ms rs tok p).mainRequests ∧
    (apiMainPhase r rc ms rs tok p).mainRequests ≤ 2 ∧
    (apiMainPhase r rc ms rs tok p).outcome ≠ ApiOutcome.threw := by
  unfold apiMainPhase
  by_cases hms : ms = 401
  · by_cases hr : r = ""
    · simp [hms, hr]
    · cases rc with
      | success a =>
        by_cases ha : a = ""
        · simp [hms, hr, ha]
        · simp [hms, hr, ha]
      | badStatus => simp [hms, hr]
      | netError => simp [hms, hr]
  · simp [hms]

/-- Retry discipline of the main-request phase: a retried 401 response and
every reactive-refresh failure invoke `handleUnauthorizedResponse`, and a
failed reactive refresh returns the original 401 without retrying. -/
lemma apiMainPhase_retryOnce (r : String) (rc : RefreshOutcome) (ms rs : Nat)
    (tok : String) (p : Bool) :
    ((apiMainPhase r rc ms rs tok p).outcome
        = ApiOutcome.returned RespSource.retry 401 →
      1 ≤ (apiMainPhase r rc ms rs tok p).unauthorizedCalls) ∧
    (ms = 401 →
      (r = "" ∨ rc = RefreshOutcome.netError ∨ rc = RefreshOutcome.badStatus ∨
        rc = RefreshOutcome.success "") →
      (apiMainPhase r rc ms rs tok p).outcome
          = ApiOutcome.returned RespSource.original 401 ∧
        1 ≤ (apiMainPhase r rc ms rs tok p).unauthorizedCalls) := by
  unfold apiMainPhase
  by_cases hms : ms = 401
  · by_cases hr : r = ""
    · simp [hms, hr]
    · cases rc with
      | success a =>
        by_cases ha : a = ""
        · simp [hms, hr, ha]
        · constructor
          · intro h
            simp [hms, hr, ha] at h ⊢
            simp [h]
          · intro hms' hfail
            rcases hfail with h | h | h | h
            · exact absurd h hr
            · exact RefreshOutcome.noConfusion h
            · exact RefreshOutcome.noConfusion h
            · exact absurd (RefreshOutcome.success.inj h) ha
      | badStatus => simp [hms, hr]
      | netError => simp [hms, hr]
  · simp [hms]

/-- An undecodable stored token leaves line 85's guard false. -/
lemma tokenExpiring_of_decode_none (decode : String → Option JwtClaims)
    (access : String) (now : Int) (h : decode access = none) :
    tokenExpiring decode access now = false := by
  unfold tokenExpiring
  rw [h]

/-- A decodable token with an `exp` claim makes line 85's guard exactly the
60-second-margin comparison. -/
lemma tokenExpiring_of_decode_some (decode : String → Option JwtClaims)
    (access : String) (now e : Int) (claims : JwtClaims)
    (hdec : decode access = some claims) (hexp : claims.exp = some e) :
    tokenExpiring decode access now = decide (e * 1000 < now + 60000) := by
  unfold tokenExpiring
  rw [hdec]
  simp [hexp]

/-! Claim theorems: session/token lifecycle. -/

/-- Counterexample to C1: a stored token that `decodeJwt` cannot decode
(here `"garbage"`, which has no `'.'` payload segment) does NOT trigger the
refresh path, even though a refresh token is stored — `api` issues the
request directly with the stale token attached and performs no proactive
refresh fetch. -/
theorem api_undecodable_cex :
    decodeJwt (fun _ => none) "garbage" = none ∧
    apiModel (decodeJwt (fun _ => none)) "garbage" "refresh-token" 0
        (RefreshOutcome.success "new") 200 (RefreshOutcome.success "new") 200
      = ⟨false, 1, some "garbage", 0,
          ApiOutcome.returned RespSource.original 200⟩ := by
  constructor
  · rfl
  · rfl

/-- C1 (amended): a stored access token that `decodeJwt` cannot decode is
treated as fresh — `api` skips the proactive refresh entirely, issues the
request once with the stored token attached, and nothing throws from the
decode (`decodeJwt` catches internally and returns `null`); the reactive
401 path remains the only fallback. -/
theorem api_undecodableToken_skipsProactive (pp : String → Option JwtClaims)
    (access refreshTok : String) (now : Int) (proact : RefreshOutcome)
    (ms : Nat) (react : RefreshOutcome) (rs : Nat)
    (hdec : decodeJwt pp access = none) (hacc : access ≠ "") :
    (apiModel (decodeJwt pp) access refreshTok now proact ms react
        rs).proactiveRefreshAttempted = false ∧
    (apiModel (decodeJwt pp) access refreshTok now proact ms react
        rs).sentToken = some access ∧
    1 ≤ (apiModel (decodeJwt pp) access refreshTok now proact ms react
        rs).mainRequests ∧
    (apiModel (decodeJwt pp) access refreshTok now proact ms react
        rs).outcome ≠ ApiOutcome.threw := by
  have hexp := tokenExpiring_of_decode_none (decodeJwt pp) access now hdec
  have hphase := apiMainPhase_spec refreshTok react ms rs access false
  unfold apiModel
  rw [hexp]
  simp only [and_false, ne_eq, reduceIte, if_neg, Bool.false_eq_true]
  refine ⟨hphase.1, ?_, hphase.2.2.1, hphase.2.2.2.2⟩
  rw [hphase.2.1, if_neg hacc]

/-- Witness for the amended C1 at a concrete undecodable token. -/
theorem api_undecodableToken_skipsProactive_witness :
    (apiModel (decodeJwt (fun _ => none)) "not-a-jwt" "r" 12345
        RefreshOutcome.badStatus 401 RefreshOutcome.badStatus
        200).proactiveRefreshAttempted = false ∧
    (apiModel (decodeJwt (fun _ => none)) "not-a-jwt" "r" 12345
        RefreshOutcome.badStatus 401 RefreshOutcome.badStatus
        200).sentToken = some "not-a-jwt" ∧
    1 ≤ (apiModel (decodeJwt (fun _ => none)) "not-a-jwt" "r" 12345
        RefreshOutcome.badStatus 401 RefreshOutcome.badStatus
        200).mainRequests ∧
    (apiModel (decodeJwt (fun _ => none)) "not-a-jwt" "r" 12345
        RefreshOutcome.badStatus 401 RefreshOutcome.badStatus
        200).outcome ≠ ApiOutcome.threw :=
  api_undecodableToken_skipsProactive (fun _ => none) "not-a-jwt" "r" 12345
    RefreshOutcome.badStatus 401 RefreshOutcome.badStatus 200
    (by decide) (by decide)

/-- C2: for a stored token whose claims decode and carry an `exp`, and with
a refresh token present, `api` performs the proactive refresh fetch before
issuing the request exactly when `exp * 1000 < now + 60000`. -/
theorem api_proactiveRefresh_iff (pp : String → Option JwtClaims)
    (access refreshTok : String) (now e : Int) (claims : JwtClaims)
    (proact : RefreshOutcome) (ms : Nat) (react : RefreshOutcome) (rs : Nat)
    (hdec : decodeJwt pp access = some claims) (hexp : claims.exp = some e)
    (href : refreshTok ≠ "") :
    (apiModel (decodeJwt pp) access refreshTok now proact ms react
        rs).proactiveRefreshAttempted = true ↔
      e * 1000 < now + 60000 := by
  have hacc : access ≠ "" := by
    intro h
    rw [h, decodeJwt_empty] at hdec
    exact Option.noConfusion hdec
  have hguard := tokenExpiring_of_decode_some (decodeJwt pp) access now e
    claims hdec hexp
  unfold apiModel
  rw [hguard]
  by_cases hlt : e * 1000 < now + 60000
  · rw [if_pos ⟨hacc, decide_eq_true hlt⟩, if_neg href]
    cases proact with
    | netError => simpa using hlt
    | badStatus => simpa using hlt
    | success a =>
      dsimp only
      by_cases ha : a = ""
      · rw [if_pos ha]
        simpa using hlt
      · rw [if_neg ha, (apiMainPhase_spec refreshTok react ms rs a true).1]
        simpa using hlt
  · rw [if_neg (fun hcond => hlt (of_decide_eq_true hcond.2)),
      (apiMainPhase_spec refreshTok react ms rs access false).1]
    simp [hlt]

/-- Witness for C2 at a concrete decodable token expiring in the past. -/
theorem api_proactiveRefresh_iff_witness :
    ((apiModel
        (decodeJwt (fun s => if s = "pay" then some ⟨some 10⟩ else none))
        "head.pay.sig" "r" 1000000 (RefreshOutcome.success "new") 200
        (RefreshOutcome.success "new") 200).proactiveRefreshAttempted = true ↔
      (10 : Int) * 1000 < 1000000 + 60000) ∧
    (10 : Int) * 1000 < 1000000 + 60000 :=
  ⟨api_proactiveRefresh_iff (fun s => if s = "pay" then some ⟨some 10⟩ else none)
      "head.pay.sig" "r" 1000000 10 ⟨some 10⟩ (RefreshOutcome.success "new") 200
      (RefreshOutcome.success "new") 200 (by decide) rfl (by decide),
    by decide⟩

/-- C3: `api` issues the original request at most twice (one retry), and
whenever the first response is a 401 and the reactive refresh cannot
produce a token (no refresh token, network error, non-2xx refresh, missing
`access` field), `handleUnauthorizedResponse` is invoked, the original 401
is returned, and no retry happens; a retry that itself returns 401 also
invokes `handleUnauthorizedResponse` and is never retried again. -/
theorem api_retry_at_most_once (pp : String → Option JwtClaims)
    (access refreshTok : String) (now : Int) (proact : RefreshOutcome)
    (ms : Nat) (react : RefreshOutcome) (rs : Nat) :
    (apiModel (decodeJwt pp) access refreshTok now proact ms react
        rs).mainRequests ≤ 2 ∧
    ((apiModel (decodeJwt pp) access refreshTok now proact ms react
          rs).outcome = ApiOutcome.returned RespSource.retry 401 →
      1 ≤ (apiModel (decodeJwt pp) access refreshTok now proact ms react
          rs).unauthorizedCalls) ∧
    (ms = 401 →
      (refreshTok = "" ∨ react = RefreshOutcome.netError ∨
        react = RefreshOutcome.badStatus ∨ react = RefreshOutcome.success "") →
      1 ≤ (apiModel (decodeJwt pp) access refreshTok now proact ms react
          rs).mainRequests →
      (apiModel (decodeJwt pp) access refreshTok now proact ms react
          rs).outcome = ApiOutcome.returned RespSource.original 401 ∧
        1 ≤ (apiModel (decodeJwt pp) access refreshTok now proact ms react
          rs).unauthorizedCalls) := by
  unfold apiModel
  split_ifs with h1 h2
  · exact ⟨by simp, by simp, by simp⟩
  · cases proact with
    | netError => exact ⟨by simp, by simp, by simp⟩
    | badStatus => exact ⟨by simp, by simp, by simp⟩
    | success a =>
      dsimp only
      split_ifs with ha
      · exact ⟨by simp, by simp, by simp⟩
      · exact ⟨(apiMainPhase_spec _ _ _ _ _ _).2.2.2.1,
          (apiMainPhase_retryOnce _ _ _ _ _ _).1,
          fun hms hfail _ => (apiMainPhase_retryOnce _ _ _ _ _ _).2 hms hfail⟩
  · exact ⟨(apiMainPhase_spec _ _ _ _ _ _).2.2.2.1,
      (apiMainPhase_retryOnce _ _ _ _ _ _).1,
      fun hms hfail _ => (apiMainPhase_retryOnce _ _ _ _ _ _).2 hms hfail⟩

/-- Witness for C3: a 401 with no stored refresh token returns the original
response after one single issue of the request and one
`handleUnauthorizedResponse` call. -/
theorem api_retry_at_most_once_witness :
    (apiModel (decodeJwt (fun _ => none)) "tok" "" 0
        (RefreshOutcome.success "x") 401 (RefreshOutcome.success "x")
        200).mainRequests ≤ 2 ∧
    (apiModel (decodeJwt (fun _ => none)) "tok" "" 0
        (RefreshOutcome.success "x") 401 (RefreshOutcome.success "x")
        200).outcome = ApiOutcome.returned RespSource.original 401 ∧
    1 ≤ (apiModel (decodeJwt (fun _ => none)) "tok" "" 0
        (RefreshOutcome.success "x") 401 (RefreshOutcome.success "x")
        200).unauthorizedCalls :=
  ⟨(api_retry_at_most_once (fun _ => none) "tok" "" 0
      (RefreshOutcome.success "x") 401 (RefreshOutcome.success "x") 200).1,
    (api_retry_at_most_once (fun _ => none) "tok" "" 0
      (RefreshOutcome.success "x") 401 (RefreshOutcome.success "x") 200).2.2
      rfl (Or.inl rfl) (by decide)⟩

/-! Claim theorems: session invalidation debounce. -/

/-- C4: the first `handleUnauthorizedResponse` call clears tokens, user and
view state, invalidates the directory cache, switches to the login tier,
shows exactly one message and schedules the flag reset 1500 ms later; a
second call inside the debounce window (while `sessionInvalidated` is
still set) is a complete no-op, and the scheduled timeout clears the
flag. -/
theorem handleUnauthorized_debounce (s : SessionState) (now now2 : Int)
    (h : s.invalidated = false) :
    handleUnauthorizedResponse now2 (handleUnauthorizedResponse now s)
        = handleUnauthorizedResponse now s ∧
    (handleUnauthorizedResponse now s).messagesShown = s.messagesShown + 1 ∧
    (handleUnauthorizedResponse now s).invalidated = true ∧
    (handleUnauthorizedResponse now s).access = "" ∧
    (handleUnauthorizedResponse now s).refresh = "" ∧
    (handleUnauthorizedResponse now s).role = "" ∧
    (handleUnauthorizedResponse now s).storedPage = none ∧
    (handleUnauthorizedResponse now s).storedProfileId = none ∧
    (handleUnauthorizedResponse now s).storedFilters = none ∧
    (handleUnauthorizedResponse now s).dirCache = emptyDirCache ∧
    (handleUnauthorizedResponse now s).tier = "login" ∧
    (handleUnauthorizedResponse now s).pendingReset = some (now + 1500) ∧
    (sessionDebounceFires (handleUnauthorizedResponse now s)).invalidated
        = false := by
  simp [handleUnauthorizedResponse, sessionDebounceFires, h]

/-- Concrete session state used to witness the debounce theorem. -/
def sampleSession : SessionState :=
  { invalidated := false
    access := "acc"
    refresh := "ref"
    role := "HQ"
    username := "hq1"
    displayName := "HQ One"
    storedPage := some "index"
    storedProfileId := some "7"
    storedFilters := some "{}"
    dirCache := emptyDirCache
    tier := "abacus"
    messagesShown := 0
    pendingReset := none }

/-- Witness for C4: a second invalidation 100 ms after the first changes
nothing. -/
theorem handleUnauthorized_debounce_witness :
    handleUnauthorizedResponse 1100 (handleUnauthorizedResponse 1000 sampleSession)
      = handleUnauthorizedResponse 1000 sampleSession :=
  (handleUnauthorized_debounce sampleSession 1000 1100 rfl).1

/-! Claim theorems: faction directory cache. -/

/-- C8: with `force = false`, a non-empty snapshot younger than 60 s is
returned identically with no fetch and no error; with `force = true` the
fetch always happens, and a successful fetch replaces the snapshot with
one whole new object carrying the fetched list, both rebuilt indices and
the new timestamp. -/
theorem getFactionDirectory_spec (cache : DirCache) (now : Int)
    (fetch : DirFetch) (list : List (Option DirEntry))
    (hne : cache.list ≠ []) (hfresh : now - cache.timestamp < 60000) :
    getFactionDirectory false cache now fetch = ⟨cache, false, none⟩ ∧
    (getFactionDirectory true cache now fetch).fetched = true ∧
    getFactionDirectory true cache now (DirFetch.ok list) =
      ⟨⟨list, (buildIndices list).1, (buildIndices list).2, now⟩, true,
        none⟩ := by
  refine ⟨?_, ?_, ?_⟩
  · unfold getFactionDirectory
    rw [if_pos ⟨by simp, hne, hfresh⟩]
  · unfold getFactionDirectory
    rw [if_neg (by simp)]
    cases fetch <;> rfl
  · unfold getFactionDirectory
    rw [if_neg (by simp)]

/-- Witness for C8 at a one-entry snapshot fetched at time 100 and read
back at time 200. -/
theorem getFactionDirectory_spec_witness :
    getFactionDirectory false
        ⟨[some ⟨1, "Aurora"⟩], [("Aurora", ⟨1, "Aurora"⟩)],
          [("1", ⟨1, "Aurora"⟩)], 100⟩ 200 (DirFetch.ok [])
      = ⟨⟨[some ⟨1, "Aurora"⟩], [("Aurora", ⟨1, "Aurora"⟩)],
          [("1", ⟨1, "Aurora"⟩)], 100⟩, false, none⟩ :=
  (getFactionDirectory_spec
    ⟨[some ⟨1, "Aurora"⟩], [("Aurora", ⟨1, "Aurora"⟩)],
      [("1", ⟨1, "Aurora"⟩)], 100⟩ 200 (DirFetch.ok []) []
    (by decide) (by decide)).1

/-! Claim theorems: faction name resolution. -/

/-- The case-insensitive scan fails exactly when no cached label matches. -/
lemma scanCaseInsensitive_eq_none (list : List (Option DirEntry))
    (lower : String) :
    scanCaseInsensitive list lower = none ↔
      ∀ item ∈ list, jsToLower (labelOf item) ≠ lower := by
  induction list with
  | nil => simp [scanCaseInsensitive]
  | cons item rest ih =>
    simp only [scanCaseInsensitive]
    by_cases h : jsToLower (labelOf item) = lower
    · simp [h, List.forall_mem_cons]
    · simp [h, ih, List.forall_mem_cons]

/-- Counterexample to C9 as stated: with an empty directory cache nothing
matches, yet the result is the trimmed input rather than the input
unchanged. -/
theorem resolveFactionName_input_cex :
    resolveFactionName emptyDirCache " Shadow Court " = "Shadow Court" ∧
    resolveFactionName emptyDirCache " Shadow Court " ≠ " Shadow Court " := by
  constructor
  · rfl
  · decide

/-- C9 (amended): `resolveFactionName` trims its input (whitespace-only
input resolves to the empty string); an exact-case hit in the by-name
index with a truthy `name` wins; otherwise the first case-insensitive
match among the cached labels is returned; and when nothing matches the
TRIMMED input is returned.  The function is total, so it never throws. -/
theorem resolveFactionName_spec (cache : DirCache) (value : String) :
    (jsTrim value = "" → resolveFactionName cache value = "") ∧
    (∀ e, jsTrim value ≠ "" →
      assocGet cache.byName (jsTrim value) = some e → e.name ≠ "" →
      resolveFactionName cache value = e.name) ∧
    (jsTrim value ≠ "" →
      (∀ e, assocGet cache.byName (jsTrim value) = some e → e.name = "") →
      (∀ item ∈ cache.list,
        jsToLower (labelOf item) ≠ jsToLower (jsTrim value)) →
      resolveFactionName cache value = jsTrim value) ∧
    (∀ label, jsTrim value ≠ "" →
      (∀ e, assocGet cache.byName (jsTrim value) = some e → e.name = "") →
      scanCaseInsensitive cache.list (jsToLower (jsTrim value)) = some label →
      resolveFactionName cache value = label) := by
  unfold resolveFactionName resolveScan
  refine ⟨fun h => by rw [if_pos h], ?_, ?_, ?_⟩
  · intro e hne hget hname
    rw [if_neg hne, hget]
    dsimp only
    rw [if_pos hname]
  · intro hne hnames hall
    rw [if_neg hne,
      (scanCaseInsensitive_eq_none cache.list (jsToLower (jsTrim value))).mpr
        hall]
    cases hget : assocGet cache.byName (jsTrim value) with
    | none => rfl
    | some e =>
      dsimp only
      rw [if_neg (by simp [hnames e hget])]
  · intro label hne hnames hscan
    rw [if_neg hne, hscan]
    cases hget : assocGet cache.byName (jsTrim value) with
    | none => rfl
    | some e =>
      dsimp only
      rw [if_neg (by simp [hnames e hget])]

/-- Witness for the amended C9: an exact hit, a case-insensitive fallback
and a no-match trim on a one-entry cache. -/
theorem resolveFactionName_spec_witness :
    resolveFactionName
        ⟨[some ⟨1, "Shadow Court"⟩], [("Shadow Court", ⟨1, "Shadow Court"⟩)],
          [("1", ⟨1, "Shadow Court"⟩)], 0⟩ " Shadow Court "
      = "Shadow Court" :=
  (resolveFactionName_spec
      ⟨[some ⟨1, "Shadow Court"⟩], [("Shadow Court", ⟨1, "Shadow Court"⟩)],
        [("1", ⟨1, "Shadow Court"⟩)], 0⟩ " Shadow Court ").2.1
    ⟨1, "Shadow Court"⟩ (by decide) (by decide) (by decide)

/-! Roster working-set lemmas. -/

/-- Membership after a JS-`Map.set`: the element is the inserted one or was
already present. -/
lemma mem_of_rosterSet {s : List RosterEntry} {e x : RosterEntry}
    (h : x ∈ rosterSet s e) : x = e ∨ x ∈ s := by
  unfold rosterSet at h
  split_ifs at h with hc
  · rcases List.mem_map.mp h with ⟨y, hy, hyx⟩
    by_cases hid : y.profile_id = e.profile_id
    · rw [if_pos hid] at hyx
      exact Or.inl hyx.symm
    · rw [if_neg hid] at hyx
      exact Or.inr (hyx ▸ hy)
  · rcases List.mem_append.mp h with h' | h'
    · exact Or.inr h'
    · exact Or.inl (by simpa using h')

/-- A successful JS-`Map.get` returns an element of the map. -/
lemma rosterGet_mem {s : List RosterEntry} {id : Nat} {e : RosterEntry}
    (h : rosterGet s id = some e) : e ∈ s :=
  List.mem_of_find?_eq_some h

/-- Deletion only removes elements. -/
lemma mem_of_rosterDelete {s : List RosterEntry} {id : Nat} {x : RosterEntry}
    (h : x ∈ rosterDelete s id) : x ∈ s :=
  (List.mem_filter.mp h).1

/-- Invariant of the roster working set: no entry is simultaneously a fresh
addition and a tombstone. -/
def rosterInv (s : List RosterEntry) : Prop :=
  ∀ e ∈ s, e.isNew = true → e.isRemoved = false

/-- Inserting an entry that satisfies the invariant preserves it. -/
lemma rosterSet_inv {s : List RosterEntry} {e : RosterEntry}
    (hs : rosterInv s) (he : e.isNew = true → e.isRemoved = false) :
    rosterInv (rosterSet s e) := by
  intro x hx
  rcases mem_of_rosterSet hx with rfl | hmem
  · exact he
  · exact hs x hmem

/-- Every entry created by the initial load is a baseline entry. -/
lemma foldl_load_isNew (opts : List String) (members : List MemberInput) :
    ∀ (s0 : List RosterEntry), (∀ e ∈ s0, e.isNew = false) →
      ∀ e ∈ members.foldl
        (fun s mem =>
          let cleanAff := normaliseAffiliation opts mem.affiliation
          rosterSet s
            { profile_id := mem.profile_id
              full_name := orUnknown mem.full_name
              aliases := mem.aliases
              affiliation := cleanAff
              originalAffiliation := cleanAff
              isNew := false
              isRemoved := false }) s0,
        e.isNew = false := by
  induction members with
  | nil =>
    intro s0 h
    simpa using h
  | cons m rest ih =>
    intro s0 h
    rw [List.foldl_cons]
    refine ih _ ?_
    intro e he
    rcases mem_of_rosterSet he with rfl | hmem
    · rfl
    · exact h e hmem

/-- `applyInitialData` yields only baseline (`isNew = false`) entries. -/
lemma applyInitialData_isNew (dataOptions : List String)
    (members : List MemberInput) :
    ∀ e ∈ (applyInitialData dataOptions members).2, e.isNew = false := by
  intro e he
  exact foldl_load_isNew (chooseAffiliationOptions dataOptions) members []
    (by simp) e he

/-- An affiliation change preserves the invariant: the flags of the mutated
entry are untouched. -/
lemma memberAffChange_inv (s : List RosterEntry) (id : Nat) (v : String)
    (hs : rosterInv s) : rosterInv (memberAffChange s id v) := by
  unfold memberAffChange
  cases hget : rosterGet s id with
  | none => exact hs
  | some e =>
    refine rosterSet_inv hs ?_
    intro hnew
    exact hs e (rosterGet_mem hget) hnew

/-- Removal preserves the invariant: an `isNew` entry is deleted outright
and only baseline entries are tombstoned. -/
lemma memberRemove_inv (s : List RosterEntry) (id : Nat)
    (hs : rosterInv s) : rosterInv (memberRemove s id) := by
  unfold memberRemove
  cases hget : rosterGet s id with
  | none => exact hs
  | some e =>
    dsimp only
    split_ifs with hnew
    · intro x hx
      exact hs x (mem_of_rosterDelete hx)
    · refine rosterSet_inv hs ?_
      intro hx
      exact absurd hx hnew

/-- A candidate add preserves the invariant: a restored entry has
`isRemoved = false` and a brand-new entry is created non-removed. -/
lemma candidateAdd_inv (opts : List String) (s : List RosterEntry)
    (cand : Candidate) (affSelectValue : String) (hs : rosterInv s) :
    rosterInv (candidateAdd opts s cand affSelectValue) := by
  unfold candidateAdd
  dsimp only
  split_ifs <;>
    first
    | exact hs
    | (cases hget : rosterGet s cand.profile_id with
       | some e => exact rosterSet_inv hs (fun _ => rfl)
       | none => exact rosterSet_inv hs (fun _ => rfl))

/-- Every reachable working set satisfies the invariant. -/
lemma reachable_inv (c : List String × List RosterEntry)
    (h : RosterReachable c) : rosterInv c.2 := by
  induction h with
  | init =>
    intro e he
    simp at he
  | load c dataOptions members _ _ =>
    intro e he hnew
    rw [applyInitialData_isNew dataOptions members e he] at hnew
    exact Bool.noConfusion hnew
  | affChange c id v _ ih => exact memberAffChange_inv c.2 id v ih
  | removeMember c id _ ih => exact memberRemove_inv c.2 id ih
  | addCandidate c cand affSelectValue _ ih =>
    exact candidateAdd_inv c.1 c.2 cand affSelectValue ih

/-! Claim theorems: roster draft reconciliation. -/

/-- C5: starting from the baseline `[{id 1, affiliation Member}]`, removing
member 1 and re-adding it with affiliation `Leader` commits an empty `add`
bucket, an empty `remove` bucket, and exactly `{id 1, Leader}` in the
update bucket — the restored tombstone is an update, not a removal. -/
theorem tombstone_restore_diff :
    computeDiff
        (candidateAdd AFFILIATION_DEFAULTS
          (memberRemove
            (applyInitialData [] [⟨1, "Rex Calder", [], "Member"⟩]).2 1)
          ⟨1, "Rex Calder", [], "Member"⟩ "Leader")
      = ⟨[], [(1, "Leader")], []⟩ := by decide

/-- C10: in every reachable roster working set no entry ever has
`isNew = true` and `isRemoved = true` simultaneously. -/
theorem rosterState_no_new_tombstone (c : List String × List RosterEntry)
    (h : RosterReachable c) :
    ∀ e ∈ c.2, e.isNew = true → e.isRemoved = false :=
  reachable_inv c h

/-- Witness for C10 on the reachable one-entry state produced by adding a
candidate to an empty roster. -/
theorem rosterState_no_new_tombstone_witness :
    RosterEntry.isRemoved ⟨2, "Nyx", [], "Leader", "Leader", true, false⟩
      = false :=
  rosterState_no_new_tombstone
    (AFFILIATION_DEFAULTS,
      candidateAdd AFFILIATION_DEFAULTS [] ⟨2, "Nyx", [], "Member"⟩ "Leader")
    (RosterReachable.addCandidate (AFFILIATION_DEFAULTS, [])
      ⟨2, "Nyx", [], "Member"⟩ "Leader" RosterReachable.init)
    ⟨2, "Nyx", [], "Leader", "Leader", true, false⟩ (by decide) rfl

/-- Under the working-set invariant, `hasChanges` is true exactly when some
diff bucket is non-empty. -/
lemma hasChanges_iff_diff (s : List RosterEntry) (hs : rosterInv s) :
    hasChanges s = true ↔
      ((computeDiff s).add ≠ [] ∨ (computeDiff s).updates ≠ [] ∨
        (computeDiff s).remove ≠ []) := by
  induction s with
  | nil => simp [hasChanges, computeDiff]
  | cons e rest ih =>
    have he : e.isNew = true → e.isRemoved = false := hs e (by simp)
    have hrest : rosterInv rest := fun x hx => hs x (List.mem_cons_of_mem _ hx)
    have ih' := ih hrest
    cases hN : e.isNew <;> cases hR : e.isRemoved
    · by_cases haff : e.affiliation = e.originalAffiliation
      · simp only [hasChanges, List.any_cons, entryChanged, computeDiff, hN,
          hR, haff] at ih' ⊢
        simpa using ih'
      · simp [hasChanges, computeDiff, entryChanged, hN, hR, haff]
    · simp [hasChanges, computeDiff, entryChanged, hN, hR]
    · simp [hasChanges, computeDiff, entryChanged, hN, hR]
    · have h1 := he hN
      rw [hR] at h1
      exact Bool.noConfusion h1

/-- C6: on every reachable working set, `hasChanges()` is true exactly when
the computed commit diff has a non-empty `add`, `updates` or `remove`
bucket, and with all three buckets empty the save handler short-circuits
into the informational `No roster changes to save.` message without any
POST. -/
theorem hasChanges_gates_commit (opts : List String) (s : List RosterEntry)
    (h : RosterReachable (opts, s)) :
    (hasChanges s = true ↔
      ((computeDiff s).add ≠ [] ∨ (computeDiff s).updates ≠ [] ∨
        (computeDiff s).remove ≠ [])) ∧
    (((computeDiff s).add = [] ∧ (computeDiff s).updates = [] ∧
        (computeDiff s).remove = []) →
      saveMembers s = SaveResult.noop "No roster changes to save." "info") := by
  refine ⟨hasChanges_iff_diff s (reachable_inv (opts, s) h), fun hempty => ?_⟩
  unfold saveMembers
  dsimp only
  rw [if_pos hempty]

/-- Witness for C6 on the reachable empty working set. -/
theorem hasChanges_gates_commit_witness :
    saveMembers [] = SaveResult.noop "No roster changes to save." "info" :=
  (hasChanges_gates_commit AFFILIATION_DEFAULTS [] RosterReachable.init).2
    (by decide)

/-- The one-pass split of the targets save handler equals a filter of the
working set by target type, in order. -/
lemma saveTargets_eq (targets : List TargetEntry) :
    saveTargets targets = SaveResult.post (PostedPayload.idLists
      ((targets.filter (fun e => e.ty = TargetType.profile)).map
        TargetEntry.id)
      ((targets.filter (fun e => e.ty = TargetType.faction)).map
        TargetEntry.id)) := by
  have aux : ∀ (l : List TargetEntry) (acc : List Nat × List Nat),
      l.foldl
        (fun acc e =>
          match e.ty with
          | .profile => (acc.1 ++ [e.id], acc.2)
          | .faction => (acc.1, acc.2 ++ [e.id])) acc
      = (acc.1 ++ (l.filter (fun e => e.ty = TargetType.profile)).map
            TargetEntry.id,
         acc.2 ++ (l.filter (fun e => e.ty = TargetType.faction)).map
            TargetEntry.id) := by
    intro l
    induction l with
    | nil =>
      intro acc
      simp
    | cons e rest ih =>
      intro acc
      cases hty : e.ty <;>
        simp [hty, ih, List.filter_cons]
  unfold saveTargets
  rw [aux targets ([], [])]
  simp

/-- Counterexample to C7: the operation-personnel commit POSTs a flat
`assignments` list, not the three `{add, update, remove}` buckets. -/
theorem personnelCommit_not_buckets_cex :
    savePersonnel [⟨7, "Vesper", "Handler"⟩]
      = SaveResult.post (PostedPayload.assignments [⟨7, "Vesper", "Handler"⟩]) ∧
    (PostedPayload.assignments [⟨7, "Vesper", "Handler"⟩]).isThreeBuckets
      = false :=
  ⟨rfl, rfl⟩

/-- C7 (amended): only the faction-members commit POSTs the three
`{add, updates, remove}` buckets (whenever the diff is non-empty); the
operation-personnel commit POSTs the complete current assignments list,
and the operation-targets commit POSTs `{profile_ids, faction_ids}` split
from the working set — neither of the latter is a three-bucket payload. -/
theorem rosterCommit_payload_shapes (s : List RosterEntry)
    (assigned : List Assignment) (targets : List TargetEntry)
    (hne : ¬((computeDiff s).add = [] ∧ (computeDiff s).updates = [] ∧
      (computeDiff s).remove = [])) :
    saveMembers s = SaveResult.post (PostedPayload.buckets (computeDiff s)) ∧
    (PostedPayload.buckets (computeDiff s)).isThreeBuckets = true ∧
    savePersonnel assigned
      = SaveResult.post (PostedPayload.assignments assigned) ∧
    (PostedPayload.assignments assigned).isThreeBuckets = false ∧
    saveTargets targets = SaveResult.post (PostedPayload.idLists
      ((targets.filter (fun e => e.ty = TargetType.profile)).map
        TargetEntry.id)
      ((targets.filter (fun e => e.ty = TargetType.faction)).map
        TargetEntry.id)) ∧
    (PostedPayload.idLists
      ((targets.filter (fun e => e.ty = TargetType.profile)).map
        TargetEntry.id)
      ((targets.filter (fun e => e.ty = TargetType.faction)).map
        TargetEntry.id)).isThreeBuckets = false := by
  refine ⟨?_, rfl, rfl, rfl, saveTargets_eq targets, rfl⟩
  unfold saveMembers
  dsimp only
  rw [if_neg hne]

/-- Witness for the amended C7 on a working set with one pending
affiliation update. -/
theorem rosterCommit_payload_shapes_witness :
    saveMembers [⟨1, "Rex Calder", [], "Leader", "Member", false, false⟩]
      = SaveResult.post (PostedPayload.buckets ⟨[], [(1, "Leader")], []⟩) :=
  (rosterCommit_payload_shapes
    [⟨1, "Rex Calder", [], "Leader", "Member", false, false⟩] [] []
    (by decide)).1

end Abacus
